import Mathlib

/-!
Verification of the naruto-jutsu-detector core: the hand-sign classifier
(hand-signs.js) and the jutsu sequence matcher (jutsu-detector.js).

The sequence matcher is embedded as a pure state-transition function over an
explicit state record, with timestamps as integer milliseconds (Date.now())
and confidences as rationals; the
callbacks (onSequenceUpdate, onJutsuComplete, onSequenceReset) are modelled as
an emitted event list, and the deferred setTimeout no-match check is modelled
as a separate step function that reads the state at fire time, exactly as the
closure in the source reads the live module variables.  The classifier is
embedded over the reals, with Math.sqrt as Real.sqrt.
-/

namespace JutsuVerify

/-! ### The twelve hand signs (hand-signs.js signRules key order) -/

inductive Sign where
  | Tiger
  | Snake
  | Ram
  | Monkey
  | Boar
  | Horse
  | Bird
  | Dog
  | Dragon
  | Ox
  | Hare
  | Rat
deriving DecidableEq, Repr

/-! ### Jutsu catalog (jutsu-detector.js, jutsus array).
Display-only metadata (japanese, color, description) is omitted. -/

structure Jutsu where
  id : String
  name : String
  signs : List Sign
  effect : String
deriving DecidableEq, Repr

def jutsus : List Jutsu :=
  [ { id := "fireball", name := "Fireball Jutsu",
      signs := [Sign.Snake, Sign.Ram, Sign.Monkey, Sign.Boar, Sign.Horse, Sign.Tiger],
      effect := "fireball" },
    { id := "chidori", name := "Chidori",
      signs := [Sign.Ox, Sign.Hare, Sign.Monkey],
      effect := "chidori" },
    { id := "shadowclone", name := "Shadow Clone Jutsu",
      signs := [Sign.Ram, Sign.Snake, Sign.Tiger],
      effect := "shadowclone" },
    { id := "waterdragon", name := "Water Dragon Jutsu",
      signs := [Sign.Ox, Sign.Monkey, Sign.Hare, Sign.Rat, Sign.Boar, Sign.Bird],
      effect := "waterdragon" } ]

/-! ### Matcher state and configuration -/

/-- A progress record as produced by findMatchingJutsus (the spread of the
jutsu record plus progress fields; only the fields the events expose). -/
structure MatchInfo where
  id : String
  progress : ℕ
  total : ℕ
  percentage : ℚ
deriving DecidableEq, Repr

/-- The module-level mutable state of jutsu-detector.js. -/
structure DetState where
  currentSequence : List Sign
  lastSignTime : ℤ
  lastDetectedSign : Option Sign
  signHoldCount : ℕ
  matchingJutsus : List MatchInfo
deriving DecidableEq, Repr

/-- The classification sample consumed by processSign: a sign (null allowed)
and a confidence. -/
structure Sample where
  sign : Option Sign
  confidence : ℚ
deriving DecidableEq, Repr

/-- Callback invocations, in invocation order. -/
inductive DetEvent where
  | update (seq : List Sign) (found : List MatchInfo)
  | complete (jutsuId : String)
  | reset (reason : String)
deriving DecidableEq, Repr

def SEQUENCE_TIMEOUT_MS : ℤ := 5000

def SIGN_HOLD_FRAMES : ℕ := 8

/-- The source constant is 0.5; mkRat 1 2 is that value in kernel-reducible
form (Batteries marks rational arithmetic irreducible, so 0.5 as a scientific
literal would not evaluate under decide). -/
def MIN_CONFIDENCE : ℚ := mkRat 1 2

def initState : DetState :=
  { currentSequence := [], lastSignTime := 0, lastDetectedSign := none,
    signHoldCount := 0, matchingJutsus := [] }

/-! ### Matcher operations -/

/-- resetSequence: full clear; the reset callback fires only when signs had
been recorded (hadSigns).  lastSignTime is not touched by the source. -/
def resetSequence (s : DetState) (reason : String) : DetState × List DetEvent :=
  ({ s with currentSequence := [], matchingJutsus := [],
            lastDetectedSign := none, signHoldCount := 0 },
   if s.currentSequence = [] then [] else [DetEvent.reset reason])

/-- findMatchingJutsus: catalog entries of which currentSequence is a
positional prefix.  The source checks length and then element-for-element
equality on the first currentSequence.length positions, which is exactly the
list isPrefixOf test.  The percentage progress/total*100 is written in the
kernel-reducible mkRat form; findMatchingJutsus_percentage below proves it is
the same rational. -/
def findMatchingJutsus (seq : List Sign) : List MatchInfo :=
  (jutsus.filter fun j => seq.isPrefixOf j.signs).map fun j =>
    { id := j.id, progress := seq.length, total := j.signs.length,
      percentage := mkRat (100 * seq.length) j.signs.length }

/-- findCompletedJutsu: first catalog entry whose required signs equal the
recorded sequence (the source compares lengths and then every position). -/
def findCompletedJutsu (seq : List Sign) : Option Jutsu :=
  jutsus.find? fun j => seq == j.signs

/-- The low-confidence branch of processSign: if a sign was being held, clear
the hold counter and the last-seen sign; otherwise do nothing. -/
def clearHold (s : DetState) : DetState :=
  if s.lastDetectedSign = none then s
  else { s with signHoldCount := 0, lastDetectedSign := none }

/-- The timeout check at the top of processSign. -/
def processTimeout (s : DetState) (now : ℤ) : DetState × List DetEvent :=
  if s.currentSequence ≠ [] ∧ now - s.lastSignTime > SEQUENCE_TIMEOUT_MS then
    resetSequence s "timeout"
  else (s, [])

/-- Sign hold detection: increment while the same sign persists, else restart
the count at 1 for the new sign. -/
def holdUpdate (s : DetState) (sign : Sign) : DetState :=
  if s.lastDetectedSign = some sign
  then { s with signHoldCount := s.signHoldCount + 1 }
  else { s with lastDetectedSign := some sign, signHoldCount := 1 }

/-- The body of processSign after the timeout check.  The Bool output records
whether the deferred no-match reset was scheduled (the setTimeout call at the
end of processSign). -/
def processCore (s : DetState) (now : ℤ) (c : Sample) :
    DetState × List DetEvent × Bool :=
  match c.sign with
  | none => (clearHold s, [], false)
  | some sign =>
    if c.confidence < MIN_CONFIDENCE then (clearHold s, [], false)
    else
      let s1 := holdUpdate s sign
      -- only register when held exactly SIGN_HOLD_FRAMES frames
      if s1.signHoldCount ≠ SIGN_HOLD_FRAMES then (s1, [], false)
      -- do not register the same sign twice in a row
      else if s1.currentSequence.getLast? = some sign then (s1, [], false)
      else
        let seq2 := s1.currentSequence ++ [sign]
        let mj := findMatchingJutsus seq2
        let s2 := { s1 with currentSequence := seq2, lastSignTime := now,
                            matchingJutsus := mj }
        match findCompletedJutsu seq2 with
        | some j =>
          let r := resetSequence s2 "completed"
          (r.1, DetEvent.update seq2 mj :: DetEvent.complete j.id :: r.2, false)
        | none =>
          (s2, [DetEvent.update seq2 mj], decide (mj = []) && decide (seq2 ≠ []))

/-- processSign for a non-null classification: timeout check, then the core. -/
def processSign (s : DetState) (now : ℤ) (c : Sample) :
    DetState × List DetEvent × Bool :=
  let t := processTimeout s now
  let r := processCore t.1 now c
  (r.1, t.2 ++ r.2.1, r.2.2)

/-- processSign as called from the host: a null classification (no hand, or
classification failed closed) returns immediately, before the timeout check. -/
def processSignOpt (s : DetState) (now : ℤ) (c : Option Sample) :
    DetState × List DetEvent × Bool :=
  match c with
  | none => (s, [], false)
  | some c => processSign s now c

/-- The deferred no-match check: the setTimeout callback reads the live
matchingJutsus variable at fire time and resets only if it is still empty. -/
def fireNoMatchCheck (s : DetState) : DetState × List DetEvent :=
  if s.matchingJutsus = [] then resetSequence s "no-match" else (s, [])

/-- Run a list of timestamped samples through processSign, collecting all
emitted events (scheduling flags are not accumulated). -/
def runTrace (s : DetState) : List (ℤ × Sample) → DetState × List DetEvent
  | [] => (s, [])
  | x :: rest =>
    let r := processSign s x.1 x.2
    let r2 := runTrace r.1 rest
    (r2.1, r.2.1 ++ r2.2)

/-- States of the matcher observable between samples: the initial state,
closed under a processed sample, the deferred no-match check firing, and a
manual reset.  (A null classification leaves the state unchanged, so it adds
no states.) -/
inductive Reachable : DetState → Prop where
  | init : Reachable initState
  | step (s : DetState) (now : ℤ) (c : Sample) :
      Reachable s → Reachable (processSign s now c).1
  | fire (s : DetState) :
      Reachable s → Reachable (fireNoMatchCheck s).1
  | manual (s : DetState) :
      Reachable s → Reachable (resetSequence s "manual").1

/-- The prefix invariant claimed for recorded sequences, in its amended form:
empty, or a strict prefix of a catalog entry, or (the no-match grace window)
a prefix of no catalog entry at all. -/
def SeqInv (seq : List Sign) : Prop :=
  seq = [] ∨ (∃ j ∈ jutsus, seq <+: j.signs ∧ seq ≠ j.signs) ∨
    (∀ j ∈ jutsus, ¬ seq <+: j.signs)

/-! ### Hand-sign classifier (hand-signs.js), over the reals -/

/-- A MediaPipe landmark point.  The source treats a missing z as 0, so z is
total here. -/
structure Point where
  x : ℝ
  y : ℝ
  z : ℝ

def origin : Point := { x := 0, y := 0, z := 0 }

/-- lm[i]: the source indexes the landmark array directly; classify guards
length ≥ 21 so indices 0..20 are always in range, and getD makes the
embedding total. -/
def lmPt (lm : List Point) (i : ℕ) : Point := lm.getD i origin

noncomputable section

open Classical

/-! Geometry kernel.  The source helpers isFingerExtended, isFingerCurled and
midpoint are not used by getHandFeatures or classify and are omitted. -/

def dist (a b : Point) : ℝ :=
  Real.sqrt ((a.x - b.x) ^ 2 + (a.y - b.y) ^ 2 + (a.z - b.z) ^ 2)

def vec (a b : Point) : Point := { x := b.x - a.x, y := b.y - a.y, z := b.z - a.z }

def dot (u v : Point) : ℝ := u.x * v.x + u.y * v.y + u.z * v.z

def mag (v : Point) : ℝ := Real.sqrt (v.x * v.x + v.y * v.y + v.z * v.z)

def angleBetween (a b c : Point) : ℝ :=
  Real.arccos (max (-1) (min 1 (dot (vec b a) (vec b c) / (mag (vec b a) * mag (vec b c) + 1e-9)))) *
    (180 / Real.pi)

def cross2D (u v : Point) : ℝ := u.x * v.y - u.y * v.x

/-! Finger feature extraction -/

def getFingerCurl (lm : List Point) (base pip dip tip : ℕ) : ℝ :=
  let fullLen := dist (lmPt lm base) (lmPt lm pip) + dist (lmPt lm pip) (lmPt lm dip) +
    dist (lmPt lm dip) (lmPt lm tip)
  let directLen := dist (lmPt lm base) (lmPt lm tip)
  let r := directLen / (fullLen + 1e-9)
  1 - max 0 (min 1 ((r - 0.5) / 0.5))

def getThumbCurl (lm : List Point) : ℝ :=
  let fullLen := dist (lmPt lm 1) (lmPt lm 2) + dist (lmPt lm 2) (lmPt lm 3) +
    dist (lmPt lm 3) (lmPt lm 4)
  let directLen := dist (lmPt lm 1) (lmPt lm 4)
  let r := directLen / (fullLen + 1e-9)
  1 - max 0 (min 1 ((r - 0.5) / 0.5))

def getFingerAngle (lm : List Point) (mcp pip dip : ℕ) : ℝ :=
  angleBetween (lmPt lm mcp) (lmPt lm pip) (lmPt lm dip)

/-- Palm size, the normalization unit of all distance features.  Note: the
source divides by it directly, with no epsilon. -/
def getPalmSize (lm : List Point) : ℝ := dist (lmPt lm 0) (lmPt lm 9)

/-- The derived feature set.  The boolean features of the source are Props
here.  The source also stows the raw landmark array in the returned record
(field lm) for debug display; no scoring rule reads it and it is omitted. -/
structure HandFeatures where
  palmSize : ℝ
  thumbCurl : ℝ
  indexCurl : ℝ
  middleCurl : ℝ
  ringCurl : ℝ
  pinkyCurl : ℝ
  thumbExtended : Prop
  indexExtended : Prop
  middleExtended : Prop
  ringExtended : Prop
  pinkyExtended : Prop
  thumbCurled : Prop
  indexCurled : Prop
  middleCurled : Prop
  ringCurled : Prop
  pinkyCurled : Prop
  indexMiddleSpread : ℝ
  middleRingSpread : ℝ
  ringPinkySpread : ℝ
  indexRingSpread : ℝ
  thumbToPalm : ℝ
  thumbToIndex : ℝ
  thumbToMiddle : ℝ
  thumbToPinky : ℝ
  indexToWrist : ℝ
  middleToWrist : ℝ
  ringToWrist : ℝ
  pinkyToWrist : ℝ
  indexMiddleTouching : Prop
  indexMiddleUp : Prop
  indexAngle : ℝ
  middleAngle : ℝ
  ringAngle : ℝ
  pinkyAngle : ℝ
  palmFacingCamera : Prop
  thumbCrossingPalm : Prop
  indexMiddleOnly : Prop
  allFingersCurled : Prop
  allFingersExtended : Prop
  hornsShape : Prop

def getHandFeatures (lm : List Point) : HandFeatures :=
  let palmSize := getPalmSize lm
  let thumbCurl := getThumbCurl lm
  let indexCurl := getFingerCurl lm 5 6 7 8
  let middleCurl := getFingerCurl lm 9 10 11 12
  let ringCurl := getFingerCurl lm 13 14 15 16
  let pinkyCurl := getFingerCurl lm 17 18 19 20
  let thumbExtended := thumbCurl < 0.4
  let indexExtended := indexCurl < 0.4
  let middleExtended := middleCurl < 0.4
  let ringExtended := ringCurl < 0.4
  let pinkyExtended := pinkyCurl < 0.4
  let indexCurled := indexCurl > 0.55
  let middleCurled := middleCurl > 0.55
  let ringCurled := ringCurl > 0.55
  let pinkyCurled := pinkyCurl > 0.55
  let thumbCurled := thumbCurl > 0.55
  { palmSize := palmSize
    thumbCurl := thumbCurl, indexCurl := indexCurl, middleCurl := middleCurl
    ringCurl := ringCurl, pinkyCurl := pinkyCurl
    thumbExtended := thumbExtended, indexExtended := indexExtended
    middleExtended := middleExtended, ringExtended := ringExtended
    pinkyExtended := pinkyExtended
    thumbCurled := thumbCurled, indexCurled := indexCurled
    middleCurled := middleCurled, ringCurled := ringCurled
    pinkyCurled := pinkyCurled
    indexMiddleSpread := dist (lmPt lm 8) (lmPt lm 12) / palmSize
    middleRingSpread := dist (lmPt lm 12) (lmPt lm 16) / palmSize
    ringPinkySpread := dist (lmPt lm 16) (lmPt lm 20) / palmSize
    indexRingSpread := dist (lmPt lm 8) (lmPt lm 16) / palmSize
    thumbToPalm := dist (lmPt lm 4) (lmPt lm 9) / palmSize
    thumbToIndex := dist (lmPt lm 4) (lmPt lm 8) / palmSize
    thumbToMiddle := dist (lmPt lm 4) (lmPt lm 12) / palmSize
    thumbToPinky := dist (lmPt lm 4) (lmPt lm 20) / palmSize
    indexToWrist := dist (lmPt lm 8) (lmPt lm 0) / palmSize
    middleToWrist := dist (lmPt lm 12) (lmPt lm 0) / palmSize
    ringToWrist := dist (lmPt lm 16) (lmPt lm 0) / palmSize
    pinkyToWrist := dist (lmPt lm 20) (lmPt lm 0) / palmSize
    indexMiddleTouching := dist (lmPt lm 8) (lmPt lm 12) / palmSize < 0.25
    indexMiddleUp := (lmPt lm 8).y < (lmPt lm 6).y ∧ (lmPt lm 12).y < (lmPt lm 10).y
    indexAngle := getFingerAngle lm 5 6 7
    middleAngle := getFingerAngle lm 9 10 11
    ringAngle := getFingerAngle lm 13 14 15
    pinkyAngle := getFingerAngle lm 17 18 19
    palmFacingCamera := cross2D (vec (lmPt lm 0) (lmPt lm 5)) (vec (lmPt lm 0) (lmPt lm 17)) > 0
    thumbCrossingPalm := ((lmPt lm 4).x > (lmPt lm 9).x ↔ (lmPt lm 0).x < (lmPt lm 9).x)
    indexMiddleOnly := indexExtended ∧ middleExtended ∧ ringCurled ∧ pinkyCurled
    allFingersCurled := indexCurled ∧ middleCurled ∧ ringCurled ∧ pinkyCurled
    allFingersExtended := indexExtended ∧ middleExtended ∧ ringExtended ∧ pinkyExtended
    hornsShape := indexExtended ∧ pinkyExtended ∧ middleCurled ∧ ringCurled }

/-! Per-sign scoring rules.  Each is a weighted sum of feature tests clamped
below at 0, transcribed weight for weight from signRules.  The rationale tag
strings attached by the source are display-only and omitted. -/

def signRule : Sign → HandFeatures → ℝ
  | Sign.Tiger, f =>
    max 0 ((if f.indexExtended then 0.25 else 0) + (if f.middleExtended then 0.25 else 0) +
      (if f.ringCurled then 0.15 else 0) + (if f.pinkyCurled then 0.15 else 0) +
      (if f.indexMiddleTouching then 0.1 else 0) + (if f.indexMiddleUp then 0.1 else 0) +
      (if f.ringExtended then -0.3 else 0) + (if f.pinkyExtended then -0.3 else 0))
  | Sign.Snake, f =>
    max 0 ((if f.allFingersCurled then 0.4 else 0) + (if f.thumbCurled then 0.2 else 0) +
      (if f.thumbToPalm < 0.8 then 0.2 else 0) + (if f.pinkyCurled then 0.1 else 0) +
      (if f.indexCurl > 0.6 then 0.1 else 0) +
      (if f.indexExtended then -0.3 else 0) + (if f.middleExtended then -0.2 else 0) +
      (if f.pinkyExtended then -0.3 else 0))
  | Sign.Ram, f =>
    max 0 ((if f.indexExtended then 0.2 else 0) + (if f.middleExtended then 0.2 else 0) +
      (if f.ringCurled then 0.15 else 0) + (if f.pinkyCurled then 0.15 else 0) +
      (if f.indexMiddleSpread > 0.35 then 0.2 else 0) +
      (if ¬ f.indexMiddleTouching then 0.1 else 0) +
      (if f.indexMiddleTouching then -0.3 else 0) +
      (if f.ringExtended then -0.3 else 0) + (if f.pinkyExtended then -0.3 else 0))
  | Sign.Monkey, f =>
    max 0 ((if f.allFingersExtended then 0.4 else 0) +
      (if f.thumbCurled ∨ f.thumbCurl > 0.3 then 0.2 else 0) +
      (if f.thumbToPalm < 0.7 then 0.15 else 0) +
      (if f.indexMiddleSpread < 0.4 then 0.1 else 0) +
      (if f.middleRingSpread < 0.4 then 0.1 else 0) +
      (if f.thumbExtended then -0.3 else 0) + (if f.indexCurled then -0.3 else 0) +
      (if f.middleCurled then -0.3 else 0))
  | Sign.Boar, f =>
    max 0 ((if f.allFingersExtended then 0.3 else 0) + (if f.thumbExtended then 0.25 else 0) +
      (if f.indexMiddleSpread > 0.3 then 0.1 else 0) +
      (if f.middleRingSpread > 0.2 then 0.1 else 0) +
      (if f.ringPinkySpread > 0.2 then 0.1 else 0) +
      (if f.thumbToPalm > 0.9 then 0.15 else 0) +
      (if f.indexCurled then -0.3 else 0) + (if f.middleCurled then -0.3 else 0) +
      (if f.thumbCurled then -0.3 else 0))
  | Sign.Horse, f =>
    max 0 ((if f.indexExtended then 0.3 else 0) + (if f.middleCurled then 0.2 else 0) +
      (if f.ringCurled then 0.15 else 0) + (if f.pinkyCurled then 0.15 else 0) +
      (if f.thumbExtended then 0.1 else 0) + (if f.thumbToIndex > 0.6 then 0.1 else 0) +
      (if f.middleExtended then -0.35 else 0) + (if f.ringExtended then -0.2 else 0) +
      (if f.pinkyExtended then -0.2 else 0))
  | Sign.Bird, f =>
    max 0 ((if f.pinkyExtended then 0.25 else 0) + (if f.ringExtended then 0.2 else 0) +
      (if f.indexCurled then 0.2 else 0) + (if f.middleCurled then 0.2 else 0) +
      (if f.ringPinkySpread < 0.35 then 0.1 else 0) +
      (if f.indexExtended then -0.35 else 0) + (if f.middleExtended then -0.35 else 0) +
      (if f.pinkyCurled then -0.3 else 0))
  | Sign.Dog, f =>
    max 0 ((if f.allFingersExtended then 0.3 else 0) + (if f.thumbExtended then 0.1 else 0) +
      (if f.indexMiddleSpread < 0.25 then 0.15 else 0) +
      (if f.middleRingSpread < 0.2 then 0.15 else 0) +
      (if f.ringPinkySpread < 0.2 then 0.15 else 0) +
      (if f.thumbToPalm < 0.9 then 0.15 else 0) +
      (if f.indexMiddleSpread > 0.4 then -0.3 else 0) +
      (if f.indexCurled then -0.3 else 0))
  | Sign.Dragon, f =>
    max 0 ((if f.indexExtended then 0.2 else 0) +
      (if f.middleCurl > 0.25 ∧ f.middleCurl < 0.65 then 0.2 else 0) +
      (if f.ringCurl > 0.25 ∧ f.ringCurl < 0.65 then 0.2 else 0) +
      (if f.pinkyCurled then 0.15 else 0) + (if f.thumbExtended then 0.15 else 0) +
      (if f.indexMiddleSpread > 0.3 then 0.1 else 0) +
      (if f.middleExtended ∧ f.ringExtended then -0.2 else 0) +
      (if f.allFingersCurled then -0.3 else 0))
  | Sign.Ox, f =>
    max 0 ((if f.hornsShape then 0.5 else 0) + (if f.indexExtended then 0.15 else 0) +
      (if f.pinkyExtended then 0.15 else 0) + (if f.middleCurled then 0.1 else 0) +
      (if f.ringCurled then 0.1 else 0) +
      (if f.middleExtended then -0.35 else 0) + (if f.ringExtended then -0.35 else 0) +
      (if f.pinkyCurled then -0.3 else 0))
  | Sign.Hare, f =>
    max 0 ((if f.pinkyExtended then 0.3 else 0) + (if f.indexCurled then 0.2 else 0) +
      (if f.middleCurled then 0.2 else 0) + (if f.ringCurled then 0.15 else 0) +
      (if f.thumbCurl > 0.3 then 0.1 else 0) +
      (if f.indexExtended then -0.3 else 0) + (if f.middleExtended then -0.3 else 0) +
      (if f.ringExtended then -0.2 else 0) + (if f.pinkyCurled then -0.5 else 0))
  | Sign.Rat, f =>
    max 0 ((if f.thumbExtended then 0.35 else 0) + (if f.indexCurled then 0.15 else 0) +
      (if f.middleCurled then 0.15 else 0) + (if f.ringCurled then 0.15 else 0) +
      (if f.pinkyCurled then 0.15 else 0) + (if f.thumbToPalm > 0.8 then 0.05 else 0) +
      (if f.indexExtended then -0.3 else 0) + (if f.middleExtended then -0.3 else 0) +
      (if f.pinkyExtended then -0.3 else 0) + (if f.thumbCurled then -0.5 else 0))

/-- Object.entries(signRules) iteration order: JS insertion order. -/
def signOrder : List Sign :=
  [Sign.Tiger, Sign.Snake, Sign.Ram, Sign.Monkey, Sign.Boar, Sign.Horse,
   Sign.Bird, Sign.Dog, Sign.Dragon, Sign.Ox, Sign.Hare, Sign.Rat]

def scoreTable (f : HandFeatures) : List (Sign × ℝ) :=
  signOrder.map fun s => (s, signRule s f)

/-- One iteration of the arg-max loop of classify: an entry wins only with a
strictly greater raw score. -/
def pickStep (best : Option Sign × ℝ) (e : Sign × ℝ) : Option Sign × ℝ :=
  if e.2 > best.2 then (some e.1, e.2) else best

/-- The arg-max loop of classify: bestSign starts null, bestScore starts 0. -/
def pickBest (table : List (Sign × ℝ)) : Option Sign × ℝ :=
  table.foldl pickStep (none, 0)

/-- The classify floor (local const minConfidence = 0.45 in the source). -/
def CLASSIFY_FLOOR : ℝ := 0.45

structure ClassificationResult where
  sign : Option Sign
  confidence : ℝ
  allScores : List (Sign × ℝ)
  features : HandFeatures
  threshold : ℝ

/-- classify: none models the JS null return on a short landmark array.  The
per-sign table stores min(1, score); the best is tracked on the raw score and
clamped to 1 only for the reported confidence, as in the source. -/
def classify (lm : List Point) : Option ClassificationResult :=
  if lm.length < 21 then none
  else
    let f := getHandFeatures lm
    let table := scoreTable f
    let best := pickBest table
    let clamped := table.map fun e => (e.1, min 1 e.2)
    if best.2 < CLASSIFY_FLOOR then
      some { sign := none, confidence := 0, allScores := clamped, features := f,
             threshold := CLASSIFY_FLOOR }
    else
      some { sign := best.1, confidence := min 1 best.2, allScores := clamped,
             features := f, threshold := CLASSIFY_FLOOR }

end

/-! ### Coherence of the derived boolean features with the numeric features
(used to reason about scoring rules through an abstract feature record). -/

def Coherent (f : HandFeatures) : Prop :=
  (f.thumbExtended ↔ f.thumbCurl < 0.4) ∧ (f.indexExtended ↔ f.indexCurl < 0.4) ∧
  (f.middleExtended ↔ f.middleCurl < 0.4) ∧ (f.ringExtended ↔ f.ringCurl < 0.4) ∧
  (f.pinkyExtended ↔ f.pinkyCurl < 0.4) ∧
  (f.thumbCurled ↔ f.thumbCurl > 0.55) ∧ (f.indexCurled ↔ f.indexCurl > 0.55) ∧
  (f.middleCurled ↔ f.middleCurl > 0.55) ∧ (f.ringCurled ↔ f.ringCurl > 0.55) ∧
  (f.pinkyCurled ↔ f.pinkyCurl > 0.55) ∧
  (f.indexMiddleTouching ↔ f.indexMiddleSpread < 0.25) ∧
  (f.allFingersCurled ↔ (f.indexCurled ∧ f.middleCurled ∧ f.ringCurled ∧ f.pinkyCurled)) ∧
  (f.allFingersExtended ↔ (f.indexExtended ∧ f.middleExtended ∧ f.ringExtended ∧ f.pinkyExtended)) ∧
  (f.hornsShape ↔ (f.indexExtended ∧ f.pinkyExtended ∧ f.middleCurled ∧ f.ringCurled))

/-! ### Concrete inputs used by witnesses and counterexamples -/

def oxS : Sample := { sign := some Sign.Ox, confidence := mkRat 9 10 }

def hareS : Sample := { sign := some Sign.Hare, confidence := mkRat 9 10 }

def monkeyS : Sample := { sign := some Sign.Monkey, confidence := mkRat 9 10 }

def tigerS : Sample := { sign := some Sign.Tiger, confidence := mkRat 9 10 }

/-- A sample with no sign (a detected hand that classified below the floor). -/
def lowS : Sample := { sign := none, confidence := 0 }

/-- The chidori feed: Ox, Hare, Monkey, each held 8 qualifying frames, all at
time 0 (well within the 5000 ms timeout), except the final completing frame. -/
def c1preTrace : List (ℤ × Sample) :=
  List.replicate 8 ((0 : ℤ), oxS) ++ List.replicate 8 ((0 : ℤ), hareS) ++
    List.replicate 7 ((0 : ℤ), monkeyS)

def c1preState : DetState := (runTrace initState c1preTrace).1

def c1trace : List (ℤ × Sample) := c1preTrace ++ [((0 : ℤ), monkeyS)]

/-- Holding Ox to registration, then one no-sign frame (ends the run without
any reset), leaving recordedSigns = [Ox] with the hold counter cleared. -/
def c2preState : DetState :=
  (runTrace initState (List.replicate 8 ((0 : ℤ), oxS) ++ [((0 : ℤ), lowS)])).1

/-- Holding Tiger for 8 qualifying frames from the initial state records
[Tiger], which is a prefix of no catalog entry. -/
def tigerState : DetState := (runTrace initState (List.replicate 8 ((0 : ℤ), tigerS))).1

/-- A state with one recorded sign (Ram), as in the timeout test of the spec. -/
def sRam : DetState :=
  { currentSequence := [Sign.Ram], lastSignTime := 0, lastDetectedSign := none,
    signHoldCount := 0, matchingJutsus := findMatchingJutsus [Sign.Ram] }

/-- A state mid-hold: [Ram] recorded, currently holding Ox for 3 frames. -/
def sHold : DetState :=
  { currentSequence := [Sign.Ram], lastSignTime := 0, lastDetectedSign := some Sign.Ox,
    signHoldCount := 3, matchingJutsus := findMatchingJutsus [Sign.Ram] }

/-- Holding Tiger for 7 qualifying frames from the initial state: one frame
short of registration. -/
def tiger7State : DetState := (runTrace initState (List.replicate 7 ((0 : ℤ), tigerS))).1

/-- A state reached after a no-match schedule became stale: from tigerState
(matching set empty, deferred reset scheduled), a manual reset and a fresh
8-frame Ox hold make the matching set non-empty again before the deferred
check fires. -/
def c7CancelState : DetState :=
  (runTrace (resetSequence tigerState "manual").1 (List.replicate 8 ((0 : ℤ), oxS))).1

/-- A landmark set with index and middle fingers straight (chains along the
x axis), ring and pinky folded back, and the index and middle tips 0.1 apart
with palm size 1: index/middle curls near 0, ring/pinky curls 1, index-middle
spread 0.1 < 0.25. -/
def wLm : List Point :=
  [ { x := 0, y := 0, z := 0 },
    { x := 0.2, y := 0.2, z := 0 }, { x := 0.4, y := 0.2, z := 0 },
    { x := 0.6, y := 0.2, z := 0 }, { x := 0.8, y := 0.2, z := 0 },
    { x := 1, y := 0.1, z := 0 }, { x := 1.4, y := 0.1, z := 0 },
    { x := 1.7, y := 0.1, z := 0 }, { x := 2, y := 0.1, z := 0 },
    { x := 1, y := 0, z := 0 }, { x := 1.4, y := 0, z := 0 },
    { x := 1.7, y := 0, z := 0 }, { x := 2, y := 0, z := 0 },
    { x := 1, y := -0.1, z := 0 }, { x := 1.5, y := -0.1, z := 0 },
    { x := 1.2, y := -0.1, z := 0 }, { x := 1.4, y := -0.1, z := 0 },
    { x := 1, y := -0.2, z := 0 }, { x := 1.5, y := -0.2, z := 0 },
    { x := 1.2, y := -0.2, z := 0 }, { x := 1.4, y := -0.2, z := 0 } ]

/-- A valid (all coordinates in [0,1]) but fully degenerate landmark set. -/
def zeroLm : List Point := List.replicate 21 origin

/-- A 21-point set whose wrist (index 0) coincides with the middle-finger
base (index 9), so the palm size is exactly 0, while the index and middle
tips (indices 8 and 12) are 0.2 apart. -/
def degLm : List Point :=
  [ { x := 0.5, y := 0.5, z := 0 },
    { x := 0.5, y := 0.5, z := 0 }, { x := 0.5, y := 0.5, z := 0 },
    { x := 0.5, y := 0.5, z := 0 }, { x := 0.5, y := 0.5, z := 0 },
    { x := 0.5, y := 0.5, z := 0 }, { x := 0.5, y := 0.5, z := 0 },
    { x := 0.5, y := 0.5, z := 0 }, { x := 0.2, y := 0.5, z := 0 },
    { x := 0.5, y := 0.5, z := 0 }, { x := 0.5, y := 0.5, z := 0 },
    { x := 0.5, y := 0.5, z := 0 }, { x := 0.4, y := 0.5, z := 0 },
    { x := 0.5, y := 0.5, z := 0 }, { x := 0.5, y := 0.5, z := 0 },
    { x := 0.5, y := 0.5, z := 0 }, { x := 0.5, y := 0.5, z := 0 },
    { x := 0.5, y := 0.5, z := 0 }, { x := 0.5, y := 0.5, z := 0 },
    { x := 0.5, y := 0.5, z := 0 }, { x := 0.5, y := 0.5, z := 0 } ]

/-- Two landmark arrays longer than 21 points that agree on indices 0..20. -/
def c10lmA : List Point := wLm ++ [origin]

def c10lmB : List Point := wLm ++ [ { x := 7, y := 8, z := 9 }, origin ]

/-! ### Helper lemmas: the sequence matcher -/

/-- The percentage stored by findMatchingJutsus is the progress/total*100 of
the source (mkRat is division of the casts). -/
theorem findMatchingJutsus_percentage (p t : ℕ) :
    (mkRat (100 * p) t : ℚ) = (p : ℚ) / (t : ℚ) * 100 := by
  rw [Rat.mkRat_eq_div]
  push_cast
  ring

theorem runTrace_append (s : DetState) (l1 l2 : List (ℤ × Sample)) :
    runTrace s (l1 ++ l2) =
      ((runTrace (runTrace s l1).1 l2).1,
        (runTrace s l1).2 ++ (runTrace (runTrace s l1).1 l2).2) := by
  induction l1 generalizing s with
  | nil => simp [runTrace]
  | cons x t ih => simp [runTrace, ih, List.append_assoc]

theorem runTrace_single (s : DetState) (x : ℤ × Sample) :
    runTrace s [x] = ((processSign s x.1 x.2).1, (processSign s x.1 x.2).2.1) := by
  simp [runTrace]

theorem processTimeout_noop (s : DetState) (now : ℤ)
    (h : ¬ (s.currentSequence ≠ [] ∧ now - s.lastSignTime > SEQUENCE_TIMEOUT_MS)) :
    processTimeout s now = (s, []) := if_neg h

/-- A qualifying sample of a sign that differs from the last seen one starts
a fresh hold count at 1 and changes nothing else. -/
theorem stepNew (s : DetState) (now : ℤ) (a : Sign) (conf : ℚ)
    (hto : ¬ (s.currentSequence ≠ [] ∧ now - s.lastSignTime > SEQUENCE_TIMEOUT_MS))
    (hconf : ¬ conf < MIN_CONFIDENCE)
    (hld : s.lastDetectedSign ≠ some a) :
    processSign s now { sign := some a, confidence := conf } =
      ({ s with lastDetectedSign := some a, signHoldCount := 1 }, [], false) := by
  simp [processSign, processTimeout_noop s now hto, processCore, holdUpdate, hconf, hld,
    SIGN_HOLD_FRAMES]

/-- A qualifying sample of the held sign whose incremented count is not 8
only increments the count. -/
theorem stepHold (s : DetState) (now : ℤ) (a : Sign) (conf : ℚ)
    (hto : ¬ (s.currentSequence ≠ [] ∧ now - s.lastSignTime > SEQUENCE_TIMEOUT_MS))
    (hconf : ¬ conf < MIN_CONFIDENCE)
    (hld : s.lastDetectedSign = some a)
    (hcnt : s.signHoldCount + 1 ≠ SIGN_HOLD_FRAMES) :
    processSign s now { sign := some a, confidence := conf } =
      ({ s with signHoldCount := s.signHoldCount + 1 }, [], false) := by
  simp [processSign, processTimeout_noop s now hto, processCore, holdUpdate, hconf, hld, hcnt]

/-- The 8th qualifying frame of a held sign (count 7 going to 8) appends it,
fires the update callback, and schedules the deferred no-match check exactly
when the new matching set is empty (this is the non-completing case). -/
theorem stepAppend (s : DetState) (now : ℤ) (a : Sign) (conf : ℚ)
    (hto : ¬ (s.currentSequence ≠ [] ∧ now - s.lastSignTime > SEQUENCE_TIMEOUT_MS))
    (hconf : ¬ conf < MIN_CONFIDENCE)
    (hld : s.lastDetectedSign = some a)
    (hcnt : s.signHoldCount = 7)
    (hlast : s.currentSequence.getLast? ≠ some a)
    (hnc : findCompletedJutsu (s.currentSequence ++ [a]) = none) :
    processSign s now { sign := some a, confidence := conf } =
      ({ s with
          currentSequence := s.currentSequence ++ [a], lastSignTime := now,
          signHoldCount := 8,
          matchingJutsus := findMatchingJutsus (s.currentSequence ++ [a]) },
       [DetEvent.update (s.currentSequence ++ [a])
          (findMatchingJutsus (s.currentSequence ++ [a]))],
       decide (findMatchingJutsus (s.currentSequence ++ [a]) = [])) := by
  simp [processSign, processTimeout_noop s now hto, processCore, holdUpdate, hconf, hld, hcnt,
    SIGN_HOLD_FRAMES, hlast, hnc]

/-- Phase characterization of a qualifying same-sign run: starting from a
state not already holding sign a whose last recorded sign is not a, with no
pending timeout and the appended sequence completing no jutsu, the first 7
samples only count (no events, no append), the 8th appends and fires exactly
one update event, and every later sample of the run only counts further. -/
theorem holdRunPhases (s : DetState) (a : Sign) (conf : ℚ) (now : ℤ)
    (hld : s.lastDetectedSign ≠ some a)
    (hlast : s.currentSequence.getLast? ≠ some a)
    (hconf : ¬ conf < MIN_CONFIDENCE)
    (hto : ¬ (s.currentSequence ≠ [] ∧ now - s.lastSignTime > SEQUENCE_TIMEOUT_MS))
    (hnc : findCompletedJutsu (s.currentSequence ++ [a]) = none) :
    ∀ k : ℕ, 1 ≤ k →
      (k < 8 → runTrace s (List.replicate k (now, { sign := some a, confidence := conf })) =
        ({ s with lastDetectedSign := some a, signHoldCount := k }, [])) ∧
      (8 ≤ k → runTrace s (List.replicate k (now, { sign := some a, confidence := conf })) =
        ({ s with
            lastDetectedSign := some a, signHoldCount := k,
            currentSequence := s.currentSequence ++ [a], lastSignTime := now,
            matchingJutsus := findMatchingJutsus (s.currentSequence ++ [a]) },
         [DetEvent.update (s.currentSequence ++ [a])
            (findMatchingJutsus (s.currentSequence ++ [a]))])) := by
  intro k
  induction k with
  | zero => intro h; omega
  | succ n ih =>
    intro _
    rcases Nat.lt_or_ge n 1 with h1 | h1
    · -- n = 0: the first sample of the run
      interval_cases n
      constructor
      · intro _
        have e1 : List.replicate (0 + 1) (now, ({ sign := some a, confidence := conf } : Sample)) =
            [(now, ({ sign := some a, confidence := conf } : Sample))] := rfl
        rw [e1, runTrace_single, stepNew s now a conf hto hconf hld]
      · intro h8; omega
    · have ihn := ih h1
      rw [List.replicate_succ', runTrace_append, runTrace_single]
      constructor
      · -- n + 1 < 8: still counting
        intro hlt
        have e := ihn.1 (by omega)
        rw [e]
        rw [stepHold _ now a conf (by exact hto) hconf rfl
          (by simp only [SIGN_HOLD_FRAMES]; omega)]
        simp
      · -- n + 1 ≥ 8
        intro h8
        rcases Nat.lt_or_ge n 8 with hn8 | hn8
        · -- n = 7: the appending 8th sample
          have hn7 : n = 7 := by omega
          subst hn7
          have e := ihn.1 (by omega)
          rw [e]
          rw [stepAppend _ now a conf (by exact hto) hconf rfl rfl
            (by exact hlast) (by exact hnc)]
          simp
        · -- n ≥ 8: holding past the trigger
          have e := ihn.2 hn8
          rw [e]
          rw [stepHold _ now a conf
            (by
              rintro ⟨-, hgt⟩
              simp only [SEQUENCE_TIMEOUT_MS] at hgt
              omega)
            hconf rfl (by simp only [SIGN_HOLD_FRAMES]; omega)]
          simp

/-! ### Helper lemmas: the recorded-sequence invariant -/

theorem clearHold_seq (s : DetState) : (clearHold s).currentSequence = s.currentSequence := by
  unfold clearHold
  split <;> rfl

theorem holdUpdate_seq (s : DetState) (a : Sign) :
    (holdUpdate s a).currentSequence = s.currentSequence := by
  unfold holdUpdate
  split <;> rfl

/-- A sequence on which findCompletedJutsu finds nothing satisfies the
(amended) prefix invariant: it equals no catalog entry outright, so it is
either a strict prefix of one, or a prefix of none. -/
theorem seqInv_of_not_completed (seq2 : List Sign)
    (h : findCompletedJutsu seq2 = none) : SeqInv seq2 := by
  have hne : ∀ j ∈ jutsus, seq2 ≠ j.signs := by
    simpa [findCompletedJutsu, List.find?_eq_none] using h
  by_cases hex : ∃ j ∈ jutsus, seq2 <+: j.signs
  · obtain ⟨j, hj, hpre⟩ := hex
    exact Or.inr (Or.inl ⟨j, hj, hpre, hne j hj⟩)
  · push_neg at hex
    exact Or.inr (Or.inr hex)

/-- All possible effects of the processSign body on the recorded sequence:
unchanged, cleared by a completion reset, or an append that completed
nothing. -/
theorem processCore_seq (s : DetState) (now : ℤ) (c : Sample) :
    (processCore s now c).1.currentSequence = s.currentSequence ∨
    (processCore s now c).1.currentSequence = [] ∨
    (∃ a, c.sign = some a ∧
      (processCore s now c).1.currentSequence = s.currentSequence ++ [a] ∧
      findCompletedJutsu (s.currentSequence ++ [a]) = none) := by
  unfold processCore
  rcases hsgn : c.sign with _ | a
  · left; exact clearHold_seq s
  · simp only []
    by_cases hconf : c.confidence < MIN_CONFIDENCE
    · simp only [if_pos hconf]
      left; exact clearHold_seq s
    · simp only [if_neg hconf]
      generalize hgen : holdUpdate s a = s1
      have hseq : s1.currentSequence = s.currentSequence := by
        rw [← hgen]; exact holdUpdate_seq s a
      by_cases hcnt : s1.signHoldCount ≠ SIGN_HOLD_FRAMES
      · simp only [if_pos hcnt]
        left; exact hseq
      · simp only [if_neg hcnt]
        by_cases hlast : s1.currentSequence.getLast? = some a
        · simp only [if_pos hlast]
          left; exact hseq
        · simp only [if_neg hlast]
          rcases hfc : findCompletedJutsu (s1.currentSequence ++ [a]) with _ | j
          · simp only [hfc]
            right; right
            exact ⟨a, rfl, by simp [hseq], by rw [← hseq]; exact hfc⟩
          · simp only [hfc]
            right; left
            rfl

theorem processCore_inv (s : DetState) (now : ℤ) (c : Sample)
    (h : SeqInv s.currentSequence) : SeqInv (processCore s now c).1.currentSequence := by
  rcases processCore_seq s now c with he | he | ⟨a, -, he, hnc⟩
  · rw [he]; exact h
  · rw [he]; exact Or.inl rfl
  · rw [he]; exact seqInv_of_not_completed _ hnc

theorem processSign_inv (s : DetState) (now : ℤ) (c : Sample)
    (h : SeqInv s.currentSequence) : SeqInv (processSign s now c).1.currentSequence := by
  unfold processSign processTimeout
  by_cases hcond : s.currentSequence ≠ [] ∧ now - s.lastSignTime > SEQUENCE_TIMEOUT_MS
  · simp only [if_pos hcond]
    exact processCore_inv _ now c (Or.inl rfl)
  · simp only [if_neg hcond]
    exact processCore_inv _ now c h

/-! ### Helper lemmas: the classifier -/

/-- Every scoring rule clamps its weighted sum below at 0. -/
theorem signRule_nonneg (s : Sign) (f : HandFeatures) : 0 ≤ signRule s f := by
  cases s <;> exact le_max_left 0 _

/-- The arg-max fold either keeps its accumulator or returns some table entry. -/
theorem foldl_pick_cases (table : List (Sign × ℝ)) (acc : Option Sign × ℝ) :
    table.foldl pickStep acc = acc ∨
      ∃ e ∈ table, table.foldl pickStep acc = (some e.1, e.2) := by
  induction table generalizing acc with
  | nil => left; rfl
  | cons e t ih =>
    rcases ih (pickStep acc e) with he | ⟨e', he', heq⟩
    · rw [List.foldl_cons, he]
      unfold pickStep
      split_ifs with hgt
      · right; exact ⟨e, List.mem_cons_self e t, rfl⟩
      · left; rfl
    · right
      exact ⟨e', List.mem_cons_of_mem e he', by rw [List.foldl_cons]; exact heq⟩

/-- No entry with a score at most the accumulator ever displaces it (the
strict-inequality update means ties keep the earlier sign). -/
theorem foldl_pick_stay (table : List (Sign × ℝ)) (acc : Option Sign × ℝ)
    (h : ∀ e ∈ table, e.2 ≤ acc.2) : table.foldl pickStep acc = acc := by
  induction table with
  | nil => rfl
  | cons e t ih =>
    rw [List.foldl_cons]
    have hstep : pickStep acc e = acc := by
      unfold pickStep
      rw [if_neg (not_lt.mpr (h e (List.mem_cons_self e t)))]
    rw [hstep]
    exact ih fun x hx => h x (List.mem_cons_of_mem e hx)

/-- If the head has a positive score and no later entry exceeds it, the head
wins the arg-max (ties resolved toward the earlier-evaluated sign). -/
theorem pickBest_cons_of_le (s : Sign) (v : ℝ) (rest : List (Sign × ℝ))
    (hv : 0 < v) (hall : ∀ e ∈ rest, e.2 ≤ v) :
    pickBest ((s, v) :: rest) = (some s, v) := by
  unfold pickBest
  rw [List.foldl_cons]
  have h1 : pickStep (none, 0) (s, v) = (some s, v) := by
    unfold pickStep
    rw [if_pos (by simpa using hv)]
  rw [h1]
  exact foldl_pick_stay rest (some s, v) hall

theorem pickBest_spec (table : List (Sign × ℝ)) :
    pickBest table = (none, 0) ∨ ∃ e ∈ table, pickBest table = (some e.1, e.2) :=
  foldl_pick_cases table (none, 0)

/-- The derived boolean features of getHandFeatures are exactly the threshold
tests on its numeric features. -/
theorem coherent_getHandFeatures (lm : List Point) : Coherent (getHandFeatures lm) := by
  simp [Coherent, getHandFeatures]

/-- Under the Tiger-shaped feature hypotheses (index and middle curls below
0.4, ring and pinky curls above 0.55, index-middle tips touching), the Tiger
rule scores at least 0.9. -/
theorem tiger_score_ge (f : HandFeatures) (hcoh : Coherent f)
    (hI : f.indexCurl < 0.4) (hM : f.middleCurl < 0.4)
    (hR : 0.55 < f.ringCurl) (hP : 0.55 < f.pinkyCurl)
    (hT : f.indexMiddleTouching) :
    0.9 ≤ signRule Sign.Tiger f := by
  obtain ⟨cTE, cIE, cME, cRE, cPE, cTC, cIC, cMC, cRC, cPC, cTch, cAC, cAE, cHS⟩ := hcoh
  have hIE : f.indexExtended := cIE.mpr hI
  have hME : f.middleExtended := cME.mpr hM
  have hRC : f.ringCurled := cRC.mpr hR
  have hPC : f.pinkyCurled := cPC.mpr hP
  have hnRE : ¬ f.ringExtended := fun hx => by have := cRE.mp hx; linarith
  have hnPE : ¬ f.pinkyExtended := fun hx => by have := cPE.mp hx; linarith
  simp only [signRule]
  refine le_trans ?_ (le_max_right 0 _)
  rw [if_pos hIE, if_pos hME, if_pos hRC, if_pos hPC, if_pos hT, if_neg hnRE, if_neg hnPE]
  split_ifs <;> norm_num

/-- Under the same hypotheses every other rule scores at most 0.9, whatever
the remaining (unconstrained) features are. -/
theorem other_scores_le (f : HandFeatures) (hcoh : Coherent f)
    (hI : f.indexCurl < 0.4) (hM : f.middleCurl < 0.4)
    (hR : 0.55 < f.ringCurl) (hP : 0.55 < f.pinkyCurl)
    (hT : f.indexMiddleTouching) :
    ∀ s : Sign, signRule s f ≤ 0.9 ∨ s = Sign.Tiger := by
  obtain ⟨cTE, cIE, cME, cRE, cPE, cTC, cIC, cMC, cRC, cPC, cTch, cAC, cAE, cHS⟩ := hcoh
  have hIE : f.indexExtended := cIE.mpr hI
  have hME : f.middleExtended := cME.mpr hM
  have hRC : f.ringCurled := cRC.mpr hR
  have hPC : f.pinkyCurled := cPC.mpr hP
  have hnIC : ¬ f.indexCurled := fun hx => by have := cIC.mp hx; linarith
  have hnMC : ¬ f.middleCurled := fun hx => by have := cMC.mp hx; linarith
  have hnRE : ¬ f.ringExtended := fun hx => by have := cRE.mp hx; linarith
  have hnPE : ¬ f.pinkyExtended := fun hx => by have := cPE.mp hx; linarith
  have hnAC : ¬ f.allFingersCurled := fun hx => hnIC (cAC.mp hx).1
  have hnAE : ¬ f.allFingersExtended := fun hx => hnRE (cAE.mp hx).2.2.1
  have hnHS : ¬ f.hornsShape := fun hx => hnPE (cHS.mp hx).2.1
  have hSp : f.indexMiddleSpread < 0.25 := cTch.mp hT
  intro s
  cases s
  case Tiger => right; rfl
  all_goals left
  · -- Snake
    simp only [signRule]
    refine max_le (by norm_num) ?_
    rw [if_neg hnAC, if_pos hPC, if_neg (show ¬ f.indexCurl > 0.6 by intro hx; linarith),
      if_pos hIE, if_pos hME, if_neg hnPE]
    split_ifs <;> norm_num
  · -- Ram
    simp only [signRule]
    refine max_le (by norm_num) ?_
    rw [if_pos hIE, if_pos hME, if_pos hRC, if_pos hPC,
      if_neg (show ¬ f.indexMiddleSpread > 0.35 by intro hx; linarith),
      if_neg (not_not_intro hT), if_pos hT, if_neg hnRE, if_neg hnPE]
    norm_num
  · -- Monkey
    simp only [signRule]
    refine max_le (by norm_num) ?_
    rw [if_neg hnAE, if_pos (show f.indexMiddleSpread < 0.4 by linarith),
      if_neg hnIC, if_neg hnMC]
    split_ifs <;> norm_num
  · -- Boar
    simp only [signRule]
    refine max_le (by norm_num) ?_
    rw [if_neg hnAE, if_neg (show ¬ f.indexMiddleSpread > 0.3 by intro hx; linarith),
      if_neg hnIC, if_neg hnMC]
    split_ifs <;> norm_num
  · -- Horse
    simp only [signRule]
    refine max_le (by norm_num) ?_
    rw [if_pos hIE, if_neg hnMC, if_pos hRC, if_pos hPC, if_pos hME, if_neg hnRE,
      if_neg hnPE]
    split_ifs <;> norm_num
  · -- Bird
    simp only [signRule]
    refine max_le (by norm_num) ?_
    rw [if_neg hnPE, if_neg hnRE, if_neg hnIC, if_neg hnMC, if_pos hIE, if_pos hME,
      if_pos hPC]
    split_ifs <;> norm_num
  · -- Dog
    simp only [signRule]
    refine max_le (by norm_num) ?_
    rw [if_neg hnAE, if_pos hSp,
      if_neg (show ¬ f.indexMiddleSpread > 0.4 by intro hx; linarith), if_neg hnIC]
    split_ifs <;> norm_num
  · -- Dragon
    simp only [signRule]
    refine max_le (by norm_num) ?_
    rw [if_pos hIE, if_pos hPC,
      if_neg (show ¬ f.indexMiddleSpread > 0.3 by intro hx; linarith),
      if_neg (show ¬ (f.middleExtended ∧ f.ringExtended) from fun hx => hnRE hx.2),
      if_neg hnAC]
    split_ifs <;> norm_num
  · -- Ox
    simp only [signRule]
    refine max_le (by norm_num) ?_
    rw [if_neg hnHS, if_pos hIE, if_neg hnPE, if_neg hnMC, if_pos hRC, if_pos hME,
      if_neg hnRE, if_pos hPC]
    norm_num
  · -- Hare
    simp only [signRule]
    refine max_le (by norm_num) ?_
    rw [if_neg hnPE, if_neg hnIC, if_neg hnMC, if_pos hRC, if_pos hIE, if_pos hME,
      if_neg hnRE, if_pos hPC]
    split_ifs <;> norm_num
  · -- Rat
    simp only [signRule]
    refine max_le (by norm_num) ?_
    rw [if_neg hnIC, if_neg hnMC, if_pos hRC, if_pos hPC, if_pos hIE, if_pos hME,
      if_neg hnPE]
    split_ifs <;> norm_num

/-! ### Helper lemmas: evaluating the feature extractor on concrete inputs -/

/-- The curl formula 1 - clamp((r - 0.5)/0.5) is below 0.4 whenever the
unclamped value exceeds 0.6. -/
theorem curlExpr_lt (v : ℝ) (hv : 0.6 < v) : 1 - max 0 (min 1 v) < 0.4 := by
  have h1 : min 1 v ≤ max 0 (min 1 v) := le_max_right _ _
  have h2 : (0.6 : ℝ) < min 1 v := lt_min_iff.mpr ⟨by norm_num, hv⟩
  linarith

/-- The curl formula is above 0.55 whenever the unclamped value is at most 0.4. -/
theorem curlExpr_gt (v : ℝ) (hv : v ≤ 0.4) : 0.55 < 1 - max 0 (min 1 v) := by
  have h1 : max 0 (min 1 v) ≤ 0.4 :=
    max_le (by norm_num) (le_trans (min_le_right 1 v) hv)
  linarith

/-- Distance of two points on a line parallel to the x axis. -/
theorem dist_xline (a b y z : ℝ) (h : a ≤ b) :
    dist { x := a, y := y, z := z } { x := b, y := y, z := z } = b - a := by
  show Real.sqrt ((a - b) ^ 2 + (y - y) ^ 2 + (z - z) ^ 2) = b - a
  rw [show (a - b) ^ 2 + (y - y) ^ 2 + (z - z) ^ 2 = (b - a) ^ 2 by ring,
    Real.sqrt_sq (by linarith)]

theorem dist_xline' (a b y z : ℝ) (h : b ≤ a) :
    dist { x := a, y := y, z := z } { x := b, y := y, z := z } = a - b := by
  show Real.sqrt ((a - b) ^ 2 + (y - y) ^ 2 + (z - z) ^ 2) = a - b
  rw [show (a - b) ^ 2 + (y - y) ^ 2 + (z - z) ^ 2 = (a - b) ^ 2 by ring,
    Real.sqrt_sq (by linarith)]

/-- Distance of two points on a line parallel to the y axis. -/
theorem dist_yline' (x c d z : ℝ) (h : d ≤ c) :
    dist { x := x, y := c, z := z } { x := x, y := d, z := z } = c - d := by
  show Real.sqrt ((x - x) ^ 2 + (c - d) ^ 2 + (z - z) ^ 2) = c - d
  rw [show (x - x) ^ 2 + (c - d) ^ 2 + (z - z) ^ 2 = (c - d) ^ 2 by ring,
    Real.sqrt_sq (by linarith)]

/-- The index finger chain of wLm is straight: its curl is below 0.4. -/
theorem wLm_indexCurl : (getHandFeatures wLm).indexCurl < 0.4 := by
  show getFingerCurl wLm 5 6 7 8 < 0.4
  simp only [getFingerCurl]
  rw [show lmPt wLm 5 = { x := 1, y := 0.1, z := 0 } from rfl,
    show lmPt wLm 6 = { x := 1.4, y := 0.1, z := 0 } from rfl,
    show lmPt wLm 7 = { x := 1.7, y := 0.1, z := 0 } from rfl,
    show lmPt wLm 8 = { x := 2, y := 0.1, z := 0 } from rfl,
    dist_xline 1 1.4 0.1 0 (by norm_num), dist_xline 1.4 1.7 0.1 0 (by norm_num),
    dist_xline 1.7 2 0.1 0 (by norm_num), dist_xline 1 2 0.1 0 (by norm_num)]
  apply curlExpr_lt
  norm_num

theorem wLm_middleCurl : (getHandFeatures wLm).middleCurl < 0.4 := by
  show getFingerCurl wLm 9 10 11 12 < 0.4
  simp only [getFingerCurl]
  rw [show lmPt wLm 9 = { x := 1, y := 0, z := 0 } from rfl,
    show lmPt wLm 10 = { x := 1.4, y := 0, z := 0 } from rfl,
    show lmPt wLm 11 = { x := 1.7, y := 0, z := 0 } from rfl,
    show lmPt wLm 12 = { x := 2, y := 0, z := 0 } from rfl,
    dist_xline 1 1.4 0 0 (by norm_num), dist_xline 1.4 1.7 0 0 (by norm_num),
    dist_xline 1.7 2 0 0 (by norm_num), dist_xline 1 2 0 0 (by norm_num)]
  apply curlExpr_lt
  norm_num

/-- The ring finger chain of wLm folds back: its curl is above 0.55. -/
theorem wLm_ringCurl : 0.55 < (getHandFeatures wLm).ringCurl := by
  show 0.55 < getFingerCurl wLm 13 14 15 16
  simp only [getFingerCurl]
  rw [show lmPt wLm 13 = { x := 1, y := -0.1, z := 0 } from rfl,
    show lmPt wLm 14 = { x := 1.5, y := -0.1, z := 0 } from rfl,
    show lmPt wLm 15 = { x := 1.2, y := -0.1, z := 0 } from rfl,
    show lmPt wLm 16 = { x := 1.4, y := -0.1, z := 0 } from rfl,
    dist_xline 1 1.5 (-0.1) 0 (by norm_num), dist_xline' 1.5 1.2 (-0.1) 0 (by norm_num),
    dist_xline 1.2 1.4 (-0.1) 0 (by norm_num), dist_xline 1 1.4 (-0.1) 0 (by norm_num)]
  apply curlExpr_gt
  norm_num

theorem wLm_pinkyCurl : 0.55 < (getHandFeatures wLm).pinkyCurl := by
  show 0.55 < getFingerCurl wLm 17 18 19 20
  simp only [getFingerCurl]
  rw [show lmPt wLm 17 = { x := 1, y := -0.2, z := 0 } from rfl,
    show lmPt wLm 18 = { x := 1.5, y := -0.2, z := 0 } from rfl,
    show lmPt wLm 19 = { x := 1.2, y := -0.2, z := 0 } from rfl,
    show lmPt wLm 20 = { x := 1.4, y := -0.2, z := 0 } from rfl,
    dist_xline 1 1.5 (-0.2) 0 (by norm_num), dist_xline' 1.5 1.2 (-0.2) 0 (by norm_num),
    dist_xline 1.2 1.4 (-0.2) 0 (by norm_num), dist_xline 1 1.4 (-0.2) 0 (by norm_num)]
  apply curlExpr_gt
  norm_num

/-- The index and middle tips of wLm are 0.1 apart against palm size 1. -/
theorem wLm_touching : (getHandFeatures wLm).indexMiddleTouching := by
  show dist (lmPt wLm 8) (lmPt wLm 12) / getPalmSize wLm < 0.25
  simp only [getPalmSize]
  rw [show lmPt wLm 8 = { x := 2, y := 0.1, z := 0 } from rfl,
    show lmPt wLm 12 = { x := 2, y := 0, z := 0 } from rfl,
    show lmPt wLm 0 = { x := 0, y := 0, z := 0 } from rfl,
    show lmPt wLm 9 = { x := 1, y := 0, z := 0 } from rfl,
    dist_yline' 2 0.1 0 0 (by norm_num), dist_xline 0 1 0 0 (by norm_num)]
  norm_num

/-- The classification decision reads only landmark indices 0 through 20:
two arrays agreeing there produce identical feature records. -/
theorem getHandFeatures_congr (lm1 lm2 : List Point)
    (h : ∀ i < 21, lmPt lm1 i = lmPt lm2 i) :
    getHandFeatures lm1 = getHandFeatures lm2 := by
  have e0 := h 0 (by norm_num)
  have e1 := h 1 (by norm_num)
  have e2 := h 2 (by norm_num)
  have e3 := h 3 (by norm_num)
  have e4 := h 4 (by norm_num)
  have e5 := h 5 (by norm_num)
  have e6 := h 6 (by norm_num)
  have e7 := h 7 (by norm_num)
  have e8 := h 8 (by norm_num)
  have e9 := h 9 (by norm_num)
  have e10 := h 10 (by norm_num)
  have e11 := h 11 (by norm_num)
  have e12 := h 12 (by norm_num)
  have e13 := h 13 (by norm_num)
  have e14 := h 14 (by norm_num)
  have e15 := h 15 (by norm_num)
  have e16 := h 16 (by norm_num)
  have e17 := h 17 (by norm_num)
  have e18 := h 18 (by norm_num)
  have e19 := h 19 (by norm_num)
  have e20 := h 20 (by norm_num)
  simp only [getHandFeatures, getFingerCurl, getThumbCurl, getFingerAngle, getPalmSize]
  rw [e0, e1, e2, e3, e4, e5, e6, e7, e8, e9, e10, e11, e12, e13, e14, e15, e16,
    e17, e18, e19, e20]

/-- Reachability is closed under whole traces of processed samples. -/
theorem reachable_runTrace (s : DetState) (l : List (ℤ × Sample)) (h : Reachable s) :
    Reachable (runTrace s l).1 := by
  induction l generalizing s with
  | nil => exact h
  | cons x t ih =>
    have : (runTrace s (x :: t)).1 = (runTrace (processSign s x.1 x.2).1 t).1 := by
      simp [runTrace]
    rw [this]
    exact ih _ (Reachable.step s x.1 x.2 h)

/-! ### The claims -/

set_option maxRecDepth 4000 in
/-- Claim C1, counterexample.  On the completing sample (the 8th Monkey frame
after [Ox, Hare] is recorded), the matcher fires the update callback as well:
the emitted events are update, then complete, then the completed reset.  The
claim states the update event fires only in the non-completing case, so it is
false on this sample. -/
theorem c1_counterexample :
    c1preState.currentSequence = [Sign.Ox, Sign.Hare] ∧
    c1preState.signHoldCount = 7 ∧
    processSign c1preState 0 monkeyS =
      (initState,
       [DetEvent.update [Sign.Ox, Sign.Hare, Sign.Monkey]
          [ { id := "chidori", progress := 3, total := 3, percentage := 100 } ],
        DetEvent.complete "chidori", DetEvent.reset "completed"],
       false) := by decide

set_option maxRecDepth 4000 in
/-- Claim C1, amended: feeding Ox, Hare, Monkey (each held 8 qualifying
frames, each within the timeout) fires exactly one completion event, for
chidori, and leaves recordedSigns empty immediately; the update event fires
on every append including the completing sample, immediately before the
completion event, rather than only in the non-completing case. -/
theorem c1_chidori_completion :
    (runTrace initState c1trace).2 =
      [DetEvent.update [Sign.Ox]
         [ { id := "chidori", progress := 1, total := 3, percentage := mkRat 100 3 },
           { id := "waterdragon", progress := 1, total := 6, percentage := mkRat 50 3 } ],
       DetEvent.update [Sign.Ox, Sign.Hare]
         [ { id := "chidori", progress := 2, total := 3, percentage := mkRat 200 3 } ],
       DetEvent.update [Sign.Ox, Sign.Hare, Sign.Monkey]
         [ { id := "chidori", progress := 3, total := 3, percentage := 100 } ],
       DetEvent.complete "chidori", DetEvent.reset "completed"] ∧
    ((runTrace initState c1trace).2.countP fun e =>
      match e with
      | DetEvent.complete _ => true
      | _ => false) = 1 ∧
    (runTrace initState c1trace).1.currentSequence = [] := by decide

/-- Claim C2, counterexample.  From c2preState (reached by holding Ox to
registration and then one no-sign frame; recordedSigns = [Ox], hold counter
cleared, no reset between the runs), a fresh run of 8 consecutive qualifying
Ox samples produces zero appends and no events at all: the repeat-suppression
branch rejects the 8th frame because Ox is already the last recorded sign,
so the claim that every such run appends exactly once on its 8th sample is
false. -/
theorem c2_counterexample :
    c2preState.currentSequence = [Sign.Ox] ∧
    c2preState.lastDetectedSign = none ∧
    c2preState.signHoldCount = 0 ∧
    runTrace c2preState (List.replicate 8 ((0 : ℤ), oxS)) =
      ({ currentSequence := [Sign.Ox], lastSignTime := 0,
         lastDetectedSign := some Sign.Ox, signHoldCount := 8,
         matchingJutsus :=
           [ { id := "chidori", progress := 1, total := 3, percentage := mkRat 100 3 },
             { id := "waterdragon", progress := 1, total := 6, percentage := mkRat 50 3 } ] },
       []) := by decide

/-- Claim C2, amended: for a run of consecutive qualifying samples of the
same sign a (confidence at least 0.5, no timeout pending, no reset during the
run), provided additionally that a differs from the last recorded sign
(repeat suppression) and the append completes no jutsu (a completion would
reset the hold state mid-run), the first 7 samples of the run produce zero
appends and no events, and the 8th and every later sample leave exactly one
append of a, performed precisely on the 8th sample with its single update
event. -/
theorem c2_hold_debounce (s : DetState) (a : Sign) (conf : ℚ) (now : ℤ) (k : ℕ)
    (hld : s.lastDetectedSign ≠ some a)
    (hlast : s.currentSequence.getLast? ≠ some a)
    (hconf : ¬ conf < MIN_CONFIDENCE)
    (hto : ¬ (s.currentSequence ≠ [] ∧ now - s.lastSignTime > SEQUENCE_TIMEOUT_MS))
    (hnc : findCompletedJutsu (s.currentSequence ++ [a]) = none)
    (hk : 1 ≤ k) :
    (k < 8 →
      (runTrace s (List.replicate k (now, { sign := some a, confidence := conf }))).1.currentSequence =
        s.currentSequence ∧
      (runTrace s (List.replicate k (now, { sign := some a, confidence := conf }))).2 = []) ∧
    (8 ≤ k →
      (runTrace s (List.replicate k (now, { sign := some a, confidence := conf }))).1.currentSequence =
        s.currentSequence ++ [a] ∧
      (runTrace s (List.replicate k (now, { sign := some a, confidence := conf }))).2 =
        [DetEvent.update (s.currentSequence ++ [a])
          (findMatchingJutsus (s.currentSequence ++ [a]))]) := by
  obtain ⟨h1, h2⟩ := holdRunPhases s a conf now hld hlast hconf hto hnc k hk
  constructor
  · intro hlt
    rw [h1 hlt]
    exact ⟨rfl, rfl⟩
  · intro hge
    rw [h2 hge]
    exact ⟨rfl, rfl⟩

/-- Claim C2, witness: the amended theorem applied to the initial state, the
sign Ox, confidence 0.9, and a run of 9 samples. -/
theorem c2_hold_debounce_witness :
    (9 < 8 →
      (runTrace initState (List.replicate 9 ((0 : ℤ),
        ({ sign := some Sign.Ox, confidence := mkRat 9 10 } : Sample)))).1.currentSequence =
        initState.currentSequence ∧
      (runTrace initState (List.replicate 9 ((0 : ℤ),
        ({ sign := some Sign.Ox, confidence := mkRat 9 10 } : Sample)))).2 = []) ∧
    (8 ≤ 9 →
      (runTrace initState (List.replicate 9 ((0 : ℤ),
        ({ sign := some Sign.Ox, confidence := mkRat 9 10 } : Sample)))).1.currentSequence =
        initState.currentSequence ++ [Sign.Ox] ∧
      (runTrace initState (List.replicate 9 ((0 : ℤ),
        ({ sign := some Sign.Ox, confidence := mkRat 9 10 } : Sample)))).2 =
        [DetEvent.update (initState.currentSequence ++ [Sign.Ox])
          (findMatchingJutsus (initState.currentSequence ++ [Sign.Ox]))]) :=
  c2_hold_debounce initState Sign.Ox (mkRat 9 10) 0 9 (by decide) (by decide)
    (by decide) (by decide) (by decide) (by decide)

/-- Claim C3, counterexample.  tigerState is reachable (hold Tiger for 8
qualifying frames from startup), yet its recorded sequence [Tiger] is neither
empty nor a strict prefix of any catalog entry: during the no-match grace
window the claimed invariant is violated. -/
theorem c3_counterexample :
    Reachable tigerState ∧
    tigerState.currentSequence = [Sign.Tiger] ∧
    ¬ (tigerState.currentSequence = [] ∨
        ∃ j ∈ jutsus, tigerState.currentSequence <+: j.signs ∧
          tigerState.currentSequence ≠ j.signs) ∧
    (∀ j ∈ jutsus, ¬ tigerState.currentSequence <+: j.signs) := by
  refine ⟨?_, by decide, by decide, by decide⟩
  exact reachable_runTrace initState (List.replicate 8 ((0 : ℤ), tigerS)) Reachable.init

/-- Claim C3, amended: at every observable point between samples, the
recorded sequence is empty, or a strict prefix of at least one catalog
entry, or (within the no-match grace window, pending the deferred reset) a
prefix of no catalog entry at all; in particular no reachable state holds a
complete catalog sequence. -/
theorem c3_prefix_invariant (s : DetState) (h : Reachable s) :
    SeqInv s.currentSequence := by
  induction h with
  | init => exact Or.inl rfl
  | step s now c hr ih => exact processSign_inv s now c ih
  | fire s hr ih =>
    unfold fireNoMatchCheck
    split_ifs with hc
    · exact Or.inl rfl
    · exact ih
  | manual s hr ih => exact Or.inl rfl

/-- Claim C3, witness: the amended invariant evaluated at the reachable
state tigerState. -/
theorem c3_prefix_invariant_witness : SeqInv tigerState.currentSequence :=
  c3_prefix_invariant tigerState
    (reachable_runTrace initState (List.replicate 8 ((0 : ℤ), tigerS)) Reachable.init)

/-- Claim C6: if the recorded sequence is non-empty and more than 5000 ms
have elapsed since the last accepted sign, processSign performs a full
timeout reset first — recordedSigns emptied, matching set emptied, hold
counter zeroed, last-seen sign cleared, with the reset callback fired with
reason timeout — and only then processes the incoming sample, whatever its
sign and confidence are. -/
theorem c6_timeout_reset (s : DetState) (now : ℤ) (c : Sample)
    (hne : s.currentSequence ≠ [])
    (hel : now - s.lastSignTime > SEQUENCE_TIMEOUT_MS) :
    processTimeout s now =
      ({ s with
          currentSequence := [], matchingJutsus := [],
          lastDetectedSign := none, signHoldCount := 0 },
       [DetEvent.reset "timeout"]) ∧
    processSign s now c =
      ((processCore (processTimeout s now).1 now c).1,
       DetEvent.reset "timeout" :: (processCore (processTimeout s now).1 now c).2.1,
       (processCore (processTimeout s now).1 now c).2.2) := by
  have h1 : processTimeout s now =
      ({ s with
          currentSequence := [], matchingJutsus := [],
          lastDetectedSign := none, signHoldCount := 0 },
       [DetEvent.reset "timeout"]) := by
    unfold processTimeout resetSequence
    rw [if_pos ⟨hne, hel⟩, if_neg hne]
  refine ⟨h1, ?_⟩
  conv_lhs => unfold processSign
  rw [h1]
  simp [h1]

/-- Claim C6, witness: the timeout reset at the concrete state with [Ram]
recorded at time 0, processing a sample at time 6000. -/
theorem c6_timeout_reset_witness :
    processTimeout sRam 6000 =
      ({ sRam with
          currentSequence := [], matchingJutsus := [],
          lastDetectedSign := none, signHoldCount := 0 },
       [DetEvent.reset "timeout"]) :=
  (c6_timeout_reset sRam 6000 oxS (by decide) (by decide)).1

/-- Claim C7: (1) an append that leaves the matching set empty returns the
scheduling flag for the deferred no-match reset (the setTimeout call);
(2) when the deferred check fires it reads the live matching set: it
performs the no-match reset exactly when the matching set is empty at fire
time, and is a strict no-op otherwise; (3) concretely, after a stale
schedule (tigerState) followed by a manual reset and a fresh Ox hold, the
matching set is non-empty and the deferred check changes nothing. -/
theorem c7_deferred_no_match :
    (∀ (t : DetState) (now : ℤ) (a : Sign) (conf : ℚ),
      t.lastDetectedSign = some a → t.signHoldCount = 7 →
      ¬ conf < MIN_CONFIDENCE →
      ¬ (t.currentSequence ≠ [] ∧ now - t.lastSignTime > SEQUENCE_TIMEOUT_MS) →
      t.currentSequence.getLast? ≠ some a →
      findCompletedJutsu (t.currentSequence ++ [a]) = none →
      findMatchingJutsus (t.currentSequence ++ [a]) = [] →
      processSign t now { sign := some a, confidence := conf } =
        ({ t with
            currentSequence := t.currentSequence ++ [a], lastSignTime := now,
            signHoldCount := 8, matchingJutsus := [] },
         [DetEvent.update (t.currentSequence ++ [a]) []], true)) ∧
    (∀ u : DetState, u.matchingJutsus = [] →
      fireNoMatchCheck u =
        ({ u with
            currentSequence := [], matchingJutsus := [],
            lastDetectedSign := none, signHoldCount := 0 },
         if u.currentSequence = [] then [] else [DetEvent.reset "no-match"])) ∧
    (∀ u : DetState, u.matchingJutsus ≠ [] → fireNoMatchCheck u = (u, [])) ∧
    fireNoMatchCheck c7CancelState = (c7CancelState, []) ∧
    c7CancelState.matchingJutsus ≠ [] := by
  refine ⟨?_, ?_, ?_, by decide, by decide⟩
  · intro t now a conf hld hcnt hconf hto hlast hnc hmj
    rw [stepAppend t now a conf hto hconf hld hcnt hlast hnc, hmj]
    simp
  · intro u hmj
    unfold fireNoMatchCheck resetSequence
    rw [if_pos hmj]
  · intro u hmj
    unfold fireNoMatchCheck
    rw [if_neg hmj]

/-- Claim C7, witness: the scheduling branch at the concrete state holding
Tiger at count 7 (the 8th Tiger frame appends [Tiger], which matches
nothing), and the fire-time no-op at c7CancelState. -/
theorem c7_deferred_no_match_witness :
    processSign tiger7State 0 { sign := some Sign.Tiger, confidence := mkRat 9 10 } =
      ({ tiger7State with
          currentSequence := tiger7State.currentSequence ++ [Sign.Tiger],
          lastSignTime := 0, signHoldCount := 8, matchingJutsus := [] },
       [DetEvent.update (tiger7State.currentSequence ++ [Sign.Tiger]) []], true) ∧
    fireNoMatchCheck c7CancelState = (c7CancelState, []) :=
  ⟨c7_deferred_no_match.1 tiger7State 0 Sign.Tiger (mkRat 9 10) (by decide) (by decide)
      (by decide) (by decide) (by decide) (by decide) (by decide),
   c7_deferred_no_match.2.2.2.1⟩

/-- Claim C8, counterexample.  In the same situation (state sHold: [Ram]
recorded at time 0, currently holding Ox for 3 frames, sample at time 6000,
past the timeout), a null classification is ignored entirely — no timeout
check, hold counter still 3, last-seen sign still Ox — while a low-confidence
frame performs the timeout reset and clears the hold state.  The two are not
treated identically, so the claim is false. -/
theorem c8_counterexample :
    sHold.currentSequence = [Sign.Ram] ∧
    sHold.signHoldCount = 3 ∧
    sHold.lastDetectedSign = some Sign.Ox ∧
    (6000 : ℤ) - sHold.lastSignTime > SEQUENCE_TIMEOUT_MS ∧
    processSignOpt sHold 6000 none = (sHold, [], false) ∧
    processSignOpt sHold 6000 (some lowS) =
      ({ currentSequence := [], lastSignTime := 0, lastDetectedSign := none,
         signHoldCount := 0, matchingJutsus := [] },
       [DetEvent.reset "timeout"], false) := by decide

/-- Claim C8, amended: classification of an input with fewer than 21
landmarks fails closed to the null result; fed to the matcher, a null result
is ignored entirely (early return: no timeout check, hold counter, last-seen
sign and recordedSigns all untouched).  Only a non-null classification whose
sign is null (or confidence below 0.5) gets the low-confidence treatment:
timeout check, then hold-counter and last-seen-sign clearing, with the
accumulated recordedSigns kept unless the timeout reset itself fires. -/
theorem c8_failed_classification :
    (∀ lm : List Point, lm.length < 21 → classify lm = none) ∧
    (∀ (s : DetState) (now : ℤ), processSignOpt s now none = (s, [], false)) ∧
    (∀ (s : DetState) (now : ℤ) (c : Sample), c.sign = none →
      ¬ (s.currentSequence ≠ [] ∧ now - s.lastSignTime > SEQUENCE_TIMEOUT_MS) →
      processSign s now c = (clearHold s, [], false)) ∧
    (∀ (s : DetState) (now : ℤ) (c : Sample), c.sign = none →
      s.currentSequence ≠ [] → now - s.lastSignTime > SEQUENCE_TIMEOUT_MS →
      processSign s now c =
        ({ s with
            currentSequence := [], matchingJutsus := [],
            lastDetectedSign := none, signHoldCount := 0 },
         [DetEvent.reset "timeout"], false)) := by
  refine ⟨?_, fun s now => rfl, ?_, ?_⟩
  · intro lm h
    unfold classify
    rw [if_pos h]
  · intro s now c hsgn hto
    unfold processSign
    rw [processTimeout_noop s now hto]
    unfold processCore
    rw [hsgn]
    rfl
  · intro s now c hsgn hne hel
    unfold processSign processTimeout resetSequence
    rw [if_pos ⟨hne, hel⟩, if_neg hne]
    unfold processCore
    rw [hsgn]
    simp [clearHold]

/-- Claim C8, witness: the amended theorem at the empty landmark list and at
the concrete state sHold. -/
theorem c8_failed_classification_witness :
    classify [] = none ∧
    processSignOpt sHold 0 none = (sHold, [], false) ∧
    processSign sHold 6000 lowS =
      ({ sHold with
          currentSequence := [], matchingJutsus := [],
          lastDetectedSign := none, signHoldCount := 0 },
       [DetEvent.reset "timeout"], false) :=
  ⟨c8_failed_classification.1 [] (by norm_num),
   c8_failed_classification.2.1 sHold 0,
   c8_failed_classification.2.2.2 sHold 6000 lowS rfl (by decide) (by decide)⟩

/-- Claim C4: for every 21-point landmark set whose derived features have
index and middle curls below 0.4, ring and pinky curls above 0.55, and the
index and middle tips touching (spread below 0.25 of palm size), classify
selects Tiger — in particular not Ram, whose touching penalty caps its score
at 0.4 while Tiger collects the touching bonus and scores at least 0.9 —
with score ties resolved toward the earlier-evaluated sign in the fixed
12-sign order (Tiger is evaluated first). -/
theorem c4_tiger_selected (lm : List Point) (hlen : lm.length = 21)
    (hI : (getHandFeatures lm).indexCurl < 0.4)
    (hM : (getHandFeatures lm).middleCurl < 0.4)
    (hR : 0.55 < (getHandFeatures lm).ringCurl)
    (hP : 0.55 < (getHandFeatures lm).pinkyCurl)
    (hT : (getHandFeatures lm).indexMiddleTouching) :
    ∃ r : ClassificationResult, classify lm = some r ∧ r.sign = some Sign.Tiger := by
  have hcoh := coherent_getHandFeatures lm
  have htig : 0.9 ≤ signRule Sign.Tiger (getHandFeatures lm) :=
    tiger_score_ge _ hcoh hI hM hR hP hT
  have hoth := other_scores_le _ hcoh hI hM hR hP hT
  have htbl : scoreTable (getHandFeatures lm) =
      (Sign.Tiger, signRule Sign.Tiger (getHandFeatures lm)) ::
        ([Sign.Snake, Sign.Ram, Sign.Monkey, Sign.Boar, Sign.Horse, Sign.Bird,
          Sign.Dog, Sign.Dragon, Sign.Ox, Sign.Hare, Sign.Rat].map
            fun s => (s, signRule s (getHandFeatures lm))) := by
    simp [scoreTable, signOrder]
  have hpick : pickBest (scoreTable (getHandFeatures lm)) =
      (some Sign.Tiger, signRule Sign.Tiger (getHandFeatures lm)) := by
    rw [htbl]
    apply pickBest_cons_of_le
    · exact lt_of_lt_of_le (by norm_num) htig
    · intro e he
      simp only [List.mem_map] at he
      obtain ⟨saux, hmem, rfl⟩ := he
      rcases hoth saux with hle | rfl
      · exact le_trans hle htig
      · exact le_refl _
  unfold classify
  rw [if_neg (by omega)]
  simp only []
  rw [hpick]
  rw [if_neg (show ¬ (some Sign.Tiger,
      signRule Sign.Tiger (getHandFeatures lm)).2 < CLASSIFY_FLOOR by
    simp only [CLASSIFY_FLOOR]
    exact not_lt.mpr (le_trans (by norm_num) htig))]
  exact ⟨_, rfl, rfl⟩

/-- Claim C4, witness: the concrete landmark set wLm satisfies all the
feature hypotheses and classifies as Tiger. -/
theorem c4_tiger_selected_witness :
    ∃ r : ClassificationResult, classify wLm = some r ∧ r.sign = some Sign.Tiger :=
  c4_tiger_selected wLm (by simp [wLm]) wLm_indexCurl wLm_middleCurl wLm_ringCurl
    wLm_pinkyCurl wLm_touching

/-- Claim C5: on every valid 21-point landmark set (normalized coordinates),
classify returns a result that either has a null sign with confidence 0, or
a sign from the fixed 12-sign list with confidence in (0, 1]; and the
per-sign score table always carries exactly the 12 signs in order, every
reported score at least 0. -/
theorem c5_classify_wellformed (lm : List Point) (hlen : lm.length = 21)
    (hcoords : ∀ p ∈ lm, 0 ≤ p.x ∧ p.x ≤ 1 ∧ 0 ≤ p.y ∧ p.y ≤ 1 ∧ 0 ≤ p.z ∧ p.z ≤ 1) :
    ∃ r : ClassificationResult, classify lm = some r ∧
      ((r.sign = none ∧ r.confidence = 0) ∨
        (∃ s : Sign, r.sign = some s ∧ s ∈ signOrder ∧
          0 < r.confidence ∧ r.confidence ≤ 1)) ∧
      r.allScores.map Prod.fst = signOrder ∧
      (∀ e ∈ r.allScores, 0 ≤ e.2) ∧
      (∀ s : Sign, s ∈ signOrder) := by
  have hall : ∀ s : Sign, s ∈ signOrder := by
    intro s
    cases s <;> simp [signOrder]
  have hkeys : ((scoreTable (getHandFeatures lm)).map
      fun e => (e.1, min 1 e.2)).map Prod.fst = signOrder := by
    simp [scoreTable, signOrder]
  have hscores : ∀ e ∈ (scoreTable (getHandFeatures lm)).map
      fun e => (e.1, min 1 e.2), 0 ≤ e.2 := by
    intro e he
    simp only [List.mem_map] at he
    obtain ⟨e', he', rfl⟩ := he
    exact le_min (by norm_num) (by
      simp only [scoreTable, List.mem_map] at he'
      obtain ⟨s, hs, rfl⟩ := he'
      exact signRule_nonneg s _)
  unfold classify
  rw [if_neg (by omega)]
  simp only []
  by_cases hfloor : (pickBest (scoreTable (getHandFeatures lm))).2 < CLASSIFY_FLOOR
  · rw [if_pos hfloor]
    exact ⟨_, rfl, Or.inl ⟨rfl, rfl⟩, hkeys, hscores, hall⟩
  · rw [if_neg hfloor]
    refine ⟨_, rfl, Or.inr ?_, hkeys, hscores, hall⟩
    have hge : CLASSIFY_FLOOR ≤ (pickBest (scoreTable (getHandFeatures lm))).2 :=
      not_lt.mp hfloor
    rcases pickBest_spec (scoreTable (getHandFeatures lm)) with hnone | ⟨e, he, heq⟩
    · rw [hnone] at hge
      simp only [CLASSIFY_FLOOR] at hge
      norm_num at hge
    · refine ⟨e.1, by rw [heq], hall e.1, ?_, min_le_left 1 _⟩
      have : (0 : ℝ) < (pickBest (scoreTable (getHandFeatures lm))).2 :=
        lt_of_lt_of_le (by simp only [CLASSIFY_FLOOR]; norm_num) hge
      exact lt_min (by norm_num) this

/-- Claim C5, witness: the degenerate all-zero (but valid, in-range)
landmark set. -/
theorem c5_classify_wellformed_witness :
    ∃ r : ClassificationResult, classify zeroLm = some r ∧
      ((r.sign = none ∧ r.confidence = 0) ∨
        (∃ s : Sign, r.sign = some s ∧ s ∈ signOrder ∧
          0 < r.confidence ∧ r.confidence ≤ 1)) ∧
      r.allScores.map Prod.fst = signOrder ∧
      (∀ e ∈ r.allScores, 0 ≤ e.2) ∧
      (∀ s : Sign, s ∈ signOrder) :=
  c5_classify_wellformed zeroLm (by simp [zeroLm])
    (by
      intro p hp
      simp only [zeroLm, List.mem_replicate] at hp
      rw [hp.2]
      norm_num [origin])

/-- Claim C9 (code bug): the palm-size divisor carries no epsilon guard.  At
the valid 21-point set degLm, whose wrist (index 0) coincides with the
middle-finger base (index 9), the palm size — the divisor of every spread,
thumb-distance, fingertip-to-wrist and touching feature — is exactly 0 while
the index-middle tip distance is 0.2, so those features divide a nonzero
number by zero (Infinity in the JavaScript source).  The curl features, by
contrast, do carry a 1e-9 guard: their divisor is always positive. -/
theorem c9_palm_divisor_unguarded :
    degLm.length = 21 ∧
    getPalmSize degLm = 0 ∧
    (getHandFeatures degLm).palmSize = 0 ∧
    dist (lmPt degLm 8) (lmPt degLm 12) = 0.2 ∧
    (∀ lm : List Point,
      0 < dist (lmPt lm 5) (lmPt lm 6) + dist (lmPt lm 6) (lmPt lm 7) +
        dist (lmPt lm 7) (lmPt lm 8) + 1e-9) := by
  have hpalm : getPalmSize degLm = 0 := by
    show dist (lmPt degLm 0) (lmPt degLm 9) = 0
    rw [show lmPt degLm 0 = { x := 0.5, y := 0.5, z := 0 } from rfl,
      show lmPt degLm 9 = { x := 0.5, y := 0.5, z := 0 } from rfl,
      dist_xline 0.5 0.5 0.5 0 le_rfl]
    norm_num
  refine ⟨by simp [degLm], hpalm, hpalm, ?_, ?_⟩
  · rw [show lmPt degLm 8 = { x := 0.2, y := 0.5, z := 0 } from rfl,
      show lmPt degLm 12 = { x := 0.4, y := 0.5, z := 0 } from rfl,
      dist_xline 0.2 0.4 0.5 0 (by norm_num)]
    norm_num
  · intro lm
    have h1 : 0 ≤ dist (lmPt lm 5) (lmPt lm 6) := Real.sqrt_nonneg _
    have h2 : 0 ≤ dist (lmPt lm 6) (lmPt lm 7) := Real.sqrt_nonneg _
    have h3 : 0 ≤ dist (lmPt lm 7) (lmPt lm 8) := Real.sqrt_nonneg _
    have h4 : (0 : ℝ) < 1e-9 := by norm_num
    linarith

/-- Claim C10: classify accepts landmark arrays longer than 21 points, and
its decision reads only indices 0 through 20: any two arrays of length at
least 21 that agree on those indices yield the same sign, the same
confidence, and the same per-sign score table. -/
theorem c10_extra_landmarks (lm1 lm2 : List Point)
    (h1 : 21 ≤ lm1.length) (h2 : 21 ≤ lm2.length)
    (hagree : ∀ i < 21, lmPt lm1 i = lmPt lm2 i) :
    ∃ r1 r2 : ClassificationResult, classify lm1 = some r1 ∧ classify lm2 = some r2 ∧
      r1.sign = r2.sign ∧ r1.confidence = r2.confidence ∧
      r1.allScores = r2.allScores := by
  have hf := getHandFeatures_congr lm1 lm2 hagree
  unfold classify
  simp only []
  rw [if_neg (show ¬ lm1.length < 21 by omega),
    if_neg (show ¬ lm2.length < 21 by omega), hf]
  split_ifs with hc
  · exact ⟨_, _, rfl, rfl, rfl, rfl, rfl⟩
  · exact ⟨_, _, rfl, rfl, rfl, rfl, rfl⟩

/-- Claim C10, witness: a 22-point and a 23-point array sharing the first 21
points (wLm). -/
theorem c10_extra_landmarks_witness :
    ∃ r1 r2 : ClassificationResult, classify c10lmA = some r1 ∧
      classify c10lmB = some r2 ∧
      r1.sign = r2.sign ∧ r1.confidence = r2.confidence ∧
      r1.allScores = r2.allScores :=
  c10_extra_landmarks c10lmA c10lmB (by simp [c10lmA, wLm]) (by simp [c10lmB, wLm])
    (by
      intro i hi
      interval_cases i <;> rfl)

end JutsuVerify
